import Mathlib

/-!
Shallow embedding of the real-time speech-to-text streaming core:
the priority scheduler (`src/scheduler/priority.py`), the decode workers
(`src/asr/workers.py`), the backpressure controller
(`src/runtime/backpressure.py`), the runtime result handlers
(`src/runtime/state.py`), the audio ring buffer (`src/audio/buffer.py`),
the silence tracker (`src/audio/vad_webrtc.py`) and the websocket audio
handler (`src/server/routes.py`).

Python floats are modelled as rationals (all float operations that occur in
the embedded code paths are exact on the values involved, except where a
definition's doc comment says otherwise), Python ints as `Nat`/`Int`,
`dict` as an insertion-ordered association list, `deque`/`list` as `List`,
and numpy int16 arrays as `List Int`.  Fallible numpy operations return
`Option` (`none` models a raised exception).
-/

namespace TwoStt

/-- Connection identifiers (`conn_id` strings). -/
abbrev ConnId := String

/-- Embeds `JobType` from `src/server/schemas.py`. -/
inductive JobType where
  | INTERIM
  | FINAL
deriving DecidableEq

/-- Embeds `DecodeJob` from `src/server/schemas.py`: the scheduler job record.
`audio_data` holds the int16 samples of the detached audio, timestamps are
rationals (Python floats). -/
structure DecodeJob where
  job_id : String
  job_type : JobType
  conn_id : ConnId
  audio_data : List Int
  language : String
  created_at : ℚ
  t0 : ℚ
  t1 : ℚ
deriving DecidableEq

/-- Lookup in an insertion-ordered association list modelling a Python `dict`
(`k in d` / `d[k]`). -/
def dictLookup {α : Type} (d : List (ConnId × α)) (k : ConnId) : Option α :=
  match d with
  | [] => none
  | (k', v) :: rest => if k' = k then some v else dictLookup rest k

/-- Insertion into a Python `dict` (`d[k] = v`): replaces the value in place
when the key is present, otherwise appends a new entry. -/
def dictInsert {α : Type} (d : List (ConnId × α)) (k : ConnId) (v : α) :
    List (ConnId × α) :=
  match d with
  | [] => [(k, v)]
  | (k', v') :: rest =>
    if k' = k then (k, v) :: rest else (k', v') :: dictInsert rest k v

/-- Deletion from a Python `dict` (`del d[k]`); the callers in the source
guard deletion with a membership test, so deleting an absent key never
occurs there. -/
def dictErase {α : Type} (d : List (ConnId × α)) (k : ConnId) :
    List (ConnId × α) :=
  d.filter (fun e => e.1 ≠ k)

/-- Removal of the first occurrence of an element, modelling Python's
`deque.remove` (the `try`/`except ValueError` caller checks membership
separately in the embedding). -/
def removeFirst (l : List DecodeJob) (j : DecodeJob) : List DecodeJob :=
  match l with
  | [] => []
  | x :: xs => if x = j then xs else x :: removeFirst xs j

/-- Embeds the state of `PriorityScheduler` from `src/scheduler/priority.py`:
the two job queues, the coalescing map, the in-flight map, the burst limits
and the statistics counters. -/
structure PriorityScheduler where
  q_final : List DecodeJob
  q_interim : List DecodeJob
  interim_queued_by_conn : List (ConnId × DecodeJob)
  inflight_by_conn : List (ConnId × DecodeJob)
  f_final_burst : ℕ
  f_interim_burst : ℕ
  stats_enqueued_finals : ℕ
  stats_enqueued_interims : ℕ
  stats_dequeued_finals : ℕ
  stats_dequeued_interims : ℕ
  stats_coalesced : ℕ
deriving DecidableEq

/-- Embeds `PriorityScheduler.__init__`: empty queues and maps, burst limits
taken from the configuration. -/
def PriorityScheduler.init (ffb fib : ℕ) : PriorityScheduler :=
  { q_final := []
    q_interim := []
    interim_queued_by_conn := []
    inflight_by_conn := []
    f_final_burst := ffb
    f_interim_burst := fib
    stats_enqueued_finals := 0
    stats_enqueued_interims := 0
    stats_dequeued_finals := 0
    stats_dequeued_interims := 0
    stats_coalesced := 0 }

/-- Embeds `PriorityScheduler.enqueue_final` (src/scheduler/priority.py,
lines 50-59). -/
def PriorityScheduler.enqueue_final (s : PriorityScheduler) (job : DecodeJob) :
    PriorityScheduler :=
  { s with q_final := s.q_final ++ [job]
           stats_enqueued_finals := s.stats_enqueued_finals + 1 }

/-- Embeds `PriorityScheduler.enqueue_interim` (src/scheduler/priority.py,
lines 61-100): reject when an interim for the connection is in flight,
otherwise coalesce any queued interim for the connection and append the new
job.  Returns the Python return value together with the updated state. -/
def PriorityScheduler.enqueue_interim (s : PriorityScheduler)
    (job : DecodeJob) : Bool × PriorityScheduler :=
  let rejected : Bool :=
    match dictLookup s.inflight_by_conn job.conn_id with
    | some inflight_job =>
      match inflight_job.job_type with
      | JobType.INTERIM => true
      | JobType.FINAL => false
    | none => false
  if rejected then (false, s)
  else
    let s1 :=
      match dictLookup s.interim_queued_by_conn job.conn_id with
      | some old_job =>
        if old_job ∈ s.q_interim then
          { s with q_interim := removeFirst s.q_interim old_job
                   stats_coalesced := s.stats_coalesced + 1 }
        else s
      | none => s
    (true,
      { s1 with q_interim := s1.q_interim ++ [job]
                interim_queued_by_conn :=
                  dictInsert s1.interim_queued_by_conn job.conn_id job
                stats_enqueued_interims := s1.stats_enqueued_interims + 1 })

/-- Embeds the interim half of `PriorityScheduler.get_next_job`
(src/scheduler/priority.py, lines 125-139): pop the oldest queued interim
when the interim burst limit is positive. -/
def PriorityScheduler.get_next_interim (s : PriorityScheduler) :
    Option DecodeJob × PriorityScheduler :=
  match s.q_interim with
  | job :: rest =>
    if 0 < s.f_interim_burst then
      (some job,
        { s with q_interim := rest
                 stats_dequeued_interims := s.stats_dequeued_interims + 1
                 inflight_by_conn := dictInsert s.inflight_by_conn job.conn_id job
                 interim_queued_by_conn :=
                   if (dictLookup s.interim_queued_by_conn job.conn_id).isSome then
                     dictErase s.interim_queued_by_conn job.conn_id
                   else s.interim_queued_by_conn })
    else (none, s)
  | [] => (none, s)

/-- Embeds `PriorityScheduler.get_next_job` (src/scheduler/priority.py,
lines 102-139): finals first when the final burst limit is positive,
otherwise fall through to the interim queue. -/
def PriorityScheduler.get_next_job (s : PriorityScheduler) :
    Option DecodeJob × PriorityScheduler :=
  match s.q_final with
  | job :: rest =>
    if 0 < s.f_final_burst then
      (some job,
        { s with q_final := rest
                 stats_dequeued_finals := s.stats_dequeued_finals + 1
                 inflight_by_conn := dictInsert s.inflight_by_conn job.conn_id job })
    else s.get_next_interim
  | [] => s.get_next_interim

/-- Embeds `DecodeWorker._get_job_for_type` (src/asr/workers.py, lines
115-139): each worker pops directly from the queue of its own job type; the
final branch has no burst or final-priority check, the interim branch checks
only the interim burst limit (never the final queue). -/
def get_job_for_type (s : PriorityScheduler) (jt : JobType) :
    Option DecodeJob × PriorityScheduler :=
  match jt with
  | JobType.FINAL =>
    match s.q_final with
    | job :: rest =>
      (some job,
        { s with q_final := rest
                 stats_dequeued_finals := s.stats_dequeued_finals + 1
                 inflight_by_conn := dictInsert s.inflight_by_conn job.conn_id job })
    | [] => (none, s)
  | JobType.INTERIM =>
    match s.q_interim with
    | job :: rest =>
      if 0 < s.f_interim_burst then
        (some job,
          { s with q_interim := rest
                   stats_dequeued_interims := s.stats_dequeued_interims + 1
                   inflight_by_conn := dictInsert s.inflight_by_conn job.conn_id job
                   interim_queued_by_conn :=
                     if (dictLookup s.interim_queued_by_conn job.conn_id).isSome then
                       dictErase s.interim_queued_by_conn job.conn_id
                     else s.interim_queued_by_conn })
      else (none, s)
    | [] => (none, s)

/-- Embeds `PriorityScheduler.mark_job_complete` (src/scheduler/priority.py,
lines 141-150): remove the connection's in-flight entry when present. -/
def PriorityScheduler.mark_job_complete (s : PriorityScheduler)
    (job : DecodeJob) : PriorityScheduler :=
  if (dictLookup s.inflight_by_conn job.conn_id).isSome then
    { s with inflight_by_conn := dictErase s.inflight_by_conn job.conn_id }
  else s

/-- Embeds `PriorityScheduler.set_burst_limits` (src/scheduler/priority.py,
lines 152-162). -/
def PriorityScheduler.set_burst_limits (s : PriorityScheduler)
    (ffb fib : ℕ) : PriorityScheduler :=
  { s with f_final_burst := ffb, f_interim_burst := fib }

/-!
System-level model of the dispatch pipeline: the scheduler together with the
two `DecodeWorker` instances created in `RuntimeState.startup`
(src/runtime/state.py, lines 80-100).  Each worker holds at most one job at
a time (`DecodeWorker._run` processes jobs strictly one after another) and
calls `mark_job_complete` when it finishes (src/asr/workers.py, line 197).
`decoded_interims`/`decoded_finals` count completed decodes (the invocations
of the result callback, which happens on both success and failure).
-/

/-- System state: scheduler plus the single job slot of each worker and the
ground-truth completion counters. -/
structure SystemState where
  sched : PriorityScheduler
  finalWorkerJob : Option DecodeJob
  interimWorkerJob : Option DecodeJob
  decoded_finals : ℕ
  decoded_interims : ℕ

/-- Initial system state: freshly initialized scheduler, idle workers. -/
def SystemState.init (ffb fib : ℕ) : SystemState :=
  { sched := PriorityScheduler.init ffb fib
    finalWorkerJob := none
    interimWorkerJob := none
    decoded_finals := 0
    decoded_interims := 0 }

/-- One observable transition of the dispatch pipeline.  Enqueue steps carry
the typing facts guaranteed by their callers (`RuntimeState.enqueue_final`
always constructs a `FINAL` job and `RuntimeState.enqueue_interim` an
`INTERIM` job, src/runtime/state.py, lines 165-218); dequeue steps require
the worker to be idle (`DecodeWorker._run` is sequential); completion steps
run `mark_job_complete` and count the finished decode. -/
inductive Step : SystemState → SystemState → Prop where
  | enqueue_final (s : SystemState) (job : DecodeJob)
      (htype : job.job_type = JobType.FINAL) :
      Step s { s with sched := s.sched.enqueue_final job }
  | enqueue_interim (s : SystemState) (job : DecodeJob)
      (htype : job.job_type = JobType.INTERIM) :
      Step s { s with sched := (s.sched.enqueue_interim job).2 }
  | final_worker_dequeue (s : SystemState) (job : DecodeJob)
      (sched' : PriorityScheduler)
      (hidle : s.finalWorkerJob = none)
      (hget : get_job_for_type s.sched JobType.FINAL = (some job, sched')) :
      Step s { s with sched := sched', finalWorkerJob := some job }
  | interim_worker_dequeue (s : SystemState) (job : DecodeJob)
      (sched' : PriorityScheduler)
      (hidle : s.interimWorkerJob = none)
      (hget : get_job_for_type s.sched JobType.INTERIM = (some job, sched')) :
      Step s { s with sched := sched', interimWorkerJob := some job }
  | final_worker_complete (s : SystemState) (job : DecodeJob)
      (hjob : s.finalWorkerJob = some job) :
      Step s { s with sched := s.sched.mark_job_complete job
                      finalWorkerJob := none
                      decoded_finals := s.decoded_finals + 1 }
  | interim_worker_complete (s : SystemState) (job : DecodeJob)
      (hjob : s.interimWorkerJob = some job) :
      Step s { s with sched := s.sched.mark_job_complete job
                      interimWorkerJob := none
                      decoded_interims := s.decoded_interims + 1 }
  | set_burst_limits (s : SystemState) (ffb fib : ℕ) :
      Step s { s with sched := s.sched.set_burst_limits ffb fib }

/-- States reachable from the initial state through pipeline transitions. -/
inductive Reachable (ffb fib : ℕ) : SystemState → Prop where
  | init : Reachable ffb fib (SystemState.init ffb fib)
  | step {s s' : SystemState} : Reachable ffb fib s → Step s s' →
      Reachable ffb fib s'

/-- Counts the interim-typed job held by a worker slot (0 or 1). -/
def slotInterimCount (slot : Option DecodeJob) : ℕ :=
  match slot with
  | some job => match job.job_type with
    | JobType.INTERIM => 1
    | JobType.FINAL => 0
  | none => 0

/-- Number of interim jobs currently in flight: dequeued by a worker and not
yet completed. -/
def inFlightInterims (s : SystemState) : ℕ :=
  slotInterimCount s.finalWorkerJob + slotInterimCount s.interimWorkerJob

/-- Counts the jobs of connection `c` held by a worker slot (0 or 1). -/
def slotConnCount (slot : Option DecodeJob) (c : ConnId) : ℕ :=
  match slot with
  | some job => if job.conn_id = c then 1 else 0
  | none => 0

/-- Number of interim jobs of connection `c` that are queued or in flight:
the interim-queue entries for `c` plus the worker slots holding a job of `c`
whose type is interim. -/
def queuedOrInFlightInterims (s : SystemState) (c : ConnId) : ℕ :=
  (s.sched.q_interim.filter (fun j => j.conn_id = c)).length
    + (match s.finalWorkerJob with
       | some job =>
         if job.conn_id = c ∧ job.job_type = JobType.INTERIM then 1 else 0
       | none => 0)
    + (match s.interimWorkerJob with
       | some job =>
         if job.conn_id = c ∧ job.job_type = JobType.INTERIM then 1 else 0
       | none => 0)

/-!
Backpressure controller, from `src/runtime/backpressure.py`.
-/

/-- Embeds `BackpressureLevel` from `src/server/schemas.py`. -/
inductive BackpressureLevel where
  | NORMAL
  | HIGH
  | CRITICAL
deriving DecidableEq

/-- Embeds the state of `BackpressureManager`
(src/runtime/backpressure.py, lines 21-47) together with the two
configuration burst values read by `get_burst_limits`. -/
structure BackpressureManager where
  final_hi : ℕ
  final_crit : ℕ
  interim_hi : ℕ
  interim_crit : ℕ
  level : BackpressureLevel
  base_cooldown_ms : ℕ
  base_tail_seconds : ℚ
  current_cooldown_ms : ℕ
  current_tail_seconds : ℚ
  interims_paused : Bool
  cfg_f_final_burst : ℕ
  cfg_f_interim_burst : ℕ
deriving DecidableEq

/-- Embeds `BackpressureManager.update` (src/runtime/backpressure.py, lines
49-106): recompute the level from the queue depths, then the cooldown, tail
window and pause flag from the level. -/
def BackpressureManager.update (m : BackpressureManager)
    (q_final_len q_interim_len : ℕ) : BackpressureManager :=
  let lvl : BackpressureLevel :=
    if m.final_crit ≤ q_final_len ∨ m.interim_crit ≤ q_interim_len then
      BackpressureLevel.CRITICAL
    else if m.final_hi ≤ q_final_len ∨ m.interim_hi ≤ q_interim_len then
      BackpressureLevel.HIGH
    else BackpressureLevel.NORMAL
  match lvl with
  | BackpressureLevel.CRITICAL =>
    { m with level := BackpressureLevel.CRITICAL
             current_cooldown_ms := m.base_cooldown_ms + 250
             current_tail_seconds := max (3/2 : ℚ) (m.base_tail_seconds * (1/4))
             interims_paused := decide (m.final_crit ≤ q_final_len) }
  | BackpressureLevel.HIGH =>
    { m with level := BackpressureLevel.HIGH
             current_cooldown_ms := m.base_cooldown_ms + 150
             current_tail_seconds := max (3 : ℚ) (m.base_tail_seconds * (1/2))
             interims_paused := decide (m.final_hi ≤ q_final_len) }
  | BackpressureLevel.NORMAL =>
    { m with level := BackpressureLevel.NORMAL
             current_cooldown_ms := m.base_cooldown_ms
             current_tail_seconds := m.base_tail_seconds
             interims_paused := false }

/-- Embeds `BackpressureManager.get_burst_limits`
(src/runtime/backpressure.py, lines 108-128): finals always get the
configured burst; interims get 0 when paused, otherwise a level-scaled
fraction of the configured burst. -/
def BackpressureManager.get_burst_limits (m : BackpressureManager) : ℕ × ℕ :=
  let ffb := m.cfg_f_final_burst
  let fib :=
    if m.interims_paused then 0
    else match m.level with
      | BackpressureLevel.CRITICAL => max 1 (m.cfg_f_interim_burst / 3)
      | BackpressureLevel.HIGH => max 1 (m.cfg_f_interim_burst / 2)
      | BackpressureLevel.NORMAL => m.cfg_f_interim_burst
  (ffb, fib)

/-- Embeds the state of `ConnectionThrottle`
(src/runtime/backpressure.py, lines 159-204). -/
structure ConnectionThrottle where
  base_cooldown_ms : ℕ
  jitter_ms : ℚ
  effective_cooldown_ms : ℚ
  last_interim_time : ℚ
deriving DecidableEq

/-- Embeds `ConnectionThrottle.should_allow_interim`
(src/runtime/backpressure.py, lines 184-200), with the current wall clock
passed explicitly. -/
def ConnectionThrottle.should_allow_interim (t : ConnectionThrottle)
    (current_cooldown_ms : ℕ) (now : ℚ) : Bool :=
  let elapsed_ms := (now - t.last_interim_time) * 1000
  let effective_cooldown := max t.effective_cooldown_ms (current_cooldown_ms : ℚ)
  decide (effective_cooldown ≤ elapsed_ms)

/-- Embeds `ConnectionThrottle.mark_interim_sent`
(src/runtime/backpressure.py, lines 202-204). -/
def ConnectionThrottle.mark_interim_sent (t : ConnectionThrottle) (now : ℚ) :
    ConnectionThrottle :=
  { t with last_interim_time := now }

/-!
Audio ring buffer, from `src/audio/buffer.py`.  The numpy int16 array is
modelled as an index function `ℕ → ℤ` (only indices below `max_samples` are
ever read) together with the write cursor; slice assignment becomes a
pointwise overwrite and a numpy broadcast failure becomes `none`.
-/

/-- Embeds the state of `AudioRingBuffer` (src/audio/buffer.py, lines
16-31). -/
structure AudioRingBuffer where
  sample_rate : ℕ
  max_samples : ℕ
  buffer : ℕ → ℤ
  write_pos : ℕ
  total_samples_written : ℕ
  utterance_start_pos : ℕ

/-- Embeds `AudioRingBuffer.__init__`: `max_samples = sample_rate *
max_duration_seconds`, a zero-filled buffer and zero positions. -/
def AudioRingBuffer.init (sample_rate max_duration_seconds : ℕ) :
    AudioRingBuffer :=
  { sample_rate := sample_rate
    max_samples := sample_rate * max_duration_seconds
    buffer := fun _ => 0
    write_pos := 0
    total_samples_written := 0
    utterance_start_pos := 0 }

/-- Pointwise semantics of the numpy slice assignment
`buffer[start : start + len(xs)] = xs` (assuming the slice fits the
target). -/
def writeSlice (buf : ℕ → ℤ) (start : ℕ) (xs : List ℤ) : ℕ → ℤ :=
  fun i => if start ≤ i ∧ i < start + xs.length then xs.getD (i - start) 0
           else buf i

/-- Embeds `AudioRingBuffer.append` (src/audio/buffer.py, lines 33-60).
When the chunk fits before the end of the array it is written in place;
otherwise it wraps: `buffer[write_pos:] = audio[:space_to_end]` followed by
`buffer[:remaining] = audio[space_to_end:]`.  The second assignment is a
numpy broadcast of `remaining` samples into `min(remaining, max_samples)`
slots, which raises `ValueError` when `remaining > max_samples`; that raise
is modelled as `none`.  The input chunk is already int16 (the caller
converts with `np.frombuffer(audio_bytes, dtype=np.int16)`). -/
def AudioRingBuffer.append (r : AudioRingBuffer) (audio : List ℤ) :
    Option AudioRingBuffer :=
  let num_samples := audio.length
  let space_to_end := r.max_samples - r.write_pos
  if num_samples ≤ space_to_end then
    some { r with
      buffer := writeSlice r.buffer r.write_pos audio
      write_pos := (r.write_pos + num_samples) % r.max_samples
      total_samples_written := r.total_samples_written + num_samples }
  else
    let remaining := num_samples - space_to_end
    if remaining ≤ r.max_samples then
      some { r with
        buffer := writeSlice (writeSlice r.buffer r.write_pos
                    (audio.take space_to_end)) 0 (audio.drop space_to_end)
        write_pos := (r.write_pos + num_samples) % r.max_samples
        total_samples_written := r.total_samples_written + num_samples }
    else none

/-- Embeds `AudioRingBuffer.get_tail` (src/audio/buffer.py, lines 62-89):
clamp the requested sample count to what was written and to the capacity,
then read the window ending at `write_pos`, contiguously or wrapped.
`int(sample_rate * duration_seconds)` is modelled with `Int.floor` (the
source truncates toward zero; the two agree for the non-negative durations
used by all callers). -/
def AudioRingBuffer.get_tail (r : AudioRingBuffer) (duration_seconds : ℚ) :
    List ℤ :=
  let n0 : ℕ := (((r.sample_rate : ℚ) * duration_seconds).floor).toNat
  let num_samples := min n0 (min r.total_samples_written r.max_samples)
  if num_samples = 0 then []
  else
    let start_pos := (r.write_pos + r.max_samples - num_samples) % r.max_samples
    if start_pos < r.write_pos then
      (List.range (r.write_pos - start_pos)).map (fun i => r.buffer (start_pos + i))
    else
      (List.range (r.max_samples - start_pos)).map (fun i => r.buffer (start_pos + i))
        ++ (List.range r.write_pos).map (fun i => r.buffer i)

/-- Embeds `AudioRingBuffer.get_utterance` (src/audio/buffer.py, lines
91-106): the samples from `utterance_start_pos` up to `write_pos`,
contiguously or wrapped. -/
def AudioRingBuffer.get_utterance (r : AudioRingBuffer) : List ℤ :=
  if r.utterance_start_pos ≤ r.write_pos then
    (List.range (r.write_pos - r.utterance_start_pos)).map
      (fun i => r.buffer (r.utterance_start_pos + i))
  else
    (List.range (r.max_samples - r.utterance_start_pos)).map
      (fun i => r.buffer (r.utterance_start_pos + i))
      ++ (List.range r.write_pos).map (fun i => r.buffer i)

/-- Embeds `AudioRingBuffer.mark_utterance_start` (src/audio/buffer.py,
lines 108-111). -/
def AudioRingBuffer.mark_utterance_start (r : AudioRingBuffer) :
    AudioRingBuffer :=
  { r with utterance_start_pos := r.write_pos }

/-!
Voice-activity segmentation, from `src/audio/vad_webrtc.py` and the audio
path of `src/server/routes.py`.  The external WebRTC speech classifier is a
black box; its per-chunk verdict enters the embedding as the boolean
`is_speech` input.
-/

/-- Embeds the state of `SilenceTracker` (src/audio/vad_webrtc.py, lines
104-120); `end_silence_samples = sample_rate * end_silence_ms / 1000`. -/
structure SilenceTracker where
  sample_rate : ℕ
  end_silence_samples : ℕ
  silence_samples : ℕ
  speech_started : Bool
deriving DecidableEq

/-- Embeds `SilenceTracker.__init__`. -/
def SilenceTracker.init (sample_rate end_silence_ms : ℕ) : SilenceTracker :=
  { sample_rate := sample_rate
    end_silence_samples := sample_rate * end_silence_ms / 1000
    silence_samples := 0
    speech_started := false }

/-- Embeds `SilenceTracker.update` (src/audio/vad_webrtc.py, lines
122-134): speech resets the silence counter and marks speech as started;
silence after speech accumulates. -/
def SilenceTracker.update (t : SilenceTracker) (is_speech : Bool)
    (num_samples : ℕ) : SilenceTracker :=
  if is_speech then { t with silence_samples := 0, speech_started := true }
  else if t.speech_started then
    { t with silence_samples := t.silence_samples + num_samples }
  else t

/-- Embeds `SilenceTracker.should_finalize` (src/audio/vad_webrtc.py, lines
136-138). -/
def SilenceTracker.should_finalize (t : SilenceTracker) : Bool :=
  t.speech_started && decide (t.end_silence_samples ≤ t.silence_samples)

/-- Embeds `SilenceTracker.reset` (src/audio/vad_webrtc.py, lines
140-143). -/
def SilenceTracker.reset (t : SilenceTracker) : SilenceTracker :=
  { t with silence_samples := 0, speech_started := false }

/-- Embeds the per-connection fields of `ConnectionAudioState`
(src/audio/buffer.py, lines 135-176) that the audio path reads and
writes. -/
structure ConnectionAudioState where
  conn_id : ConnId
  ring_buffer : AudioRingBuffer
  in_utterance : Bool
  utterance_id : ℕ
  last_audio_time : ℚ
  utterance_start_time : ℚ
  last_interim_text : String
  last_interim_time : ℚ
  interim_queued_or_inflight : Bool

/-- Embeds `ConnectionAudioState.start_utterance` (src/audio/buffer.py,
lines 178-185). -/
def ConnectionAudioState.start_utterance (c : ConnectionAudioState)
    (timestamp : ℚ) : ConnectionAudioState :=
  { c with in_utterance := true
           utterance_id := c.utterance_id + 1
           utterance_start_time := timestamp
           ring_buffer := c.ring_buffer.mark_utterance_start
           last_interim_text := "" }

/-- Embeds `ConnectionAudioState.end_utterance` (src/audio/buffer.py, lines
187-191). -/
def ConnectionAudioState.end_utterance (c : ConnectionAudioState) :
    ConnectionAudioState :=
  { c with in_utterance := false, interim_queued_or_inflight := false }

/-- Embeds `WebSocketHandler._finalize_utterance` (src/server/routes.py,
lines 156-187) up to the scheduler call: when the utterance slice is empty
the function returns early and changes nothing; otherwise it enqueues a
final job carrying that audio and ends the utterance.  The returned option
is the audio of the final job that was enqueued, if any. -/
def finalize_utterance (conn : ConnectionAudioState) :
    ConnectionAudioState × Option (List ℤ) :=
  let audio := conn.ring_buffer.get_utterance
  if audio.length = 0 then (conn, none)
  else (conn.end_utterance, some audio)

/-- Embeds the VAD/utterance part of `WebSocketHandler._handle_audio`
(src/server/routes.py, lines 81-123): append the chunk to the ring, feed
the classifier verdict to the silence tracker, finalize when the end-silence
threshold is reached (then reset the tracker and immediately start a new
utterance), and start an utterance on a speech chunk when idle.  Returns
`none` when the ring append raises; otherwise the new connection state, the
new tracker and whether the finalize branch fired. -/
def handle_audio (conn : ConnectionAudioState) (tracker : SilenceTracker)
    (audio : List ℤ) (is_speech : Bool) (now : ℚ) :
    Option (ConnectionAudioState × SilenceTracker × Bool) :=
  match conn.ring_buffer.append audio with
  | none => none
  | some ring1 =>
    let conn1 := { conn with ring_buffer := ring1, last_audio_time := now }
    let tr1 := tracker.update is_speech audio.length
    let fin := tr1.should_finalize
    let conn2 := if fin then ((finalize_utterance conn1).1.start_utterance now)
                 else conn1
    let tr2 := if fin then tr1.reset else tr1
    let conn3 := if is_speech = true ∧ conn2.in_utterance = false then
                   conn2.start_utterance now
                 else conn2
    some (conn3, tr2, fin)

/-!
Runtime result handling, from `src/runtime/state.py`.
-/

/-- Embeds the result dictionary built by `DecodeWorker._process_job`
(src/asr/workers.py, lines 141-197): either `{"error": str(e)}` or the
success fields. -/
structure DecodeResult where
  error : Option String
  text : String
  language : Option String
  segments : List (ℚ × ℚ × String)
  confidence : ℚ
  decode_time : ℚ
  job_wait_time : ℚ
deriving DecidableEq

/-- Embeds `InterimMessage` from `src/server/schemas.py`. -/
structure InterimMessage where
  conn : ConnId
  text : String
  stable_chars : ℕ
  t0 : ℚ
  t1 : ℚ
deriving DecidableEq

/-- Embeds `FinalMessage` from `src/server/schemas.py`. -/
structure FinalMessage where
  conn : ConnId
  text : String
  segments : List (ℚ × ℚ × String)
  language : Option String
  t0 : ℚ
  t1 : ℚ
deriving DecidableEq

/-- Floor of the base-2 logarithm, by structural recursion on a fuel
argument so that it evaluates by kernel reduction (`Nat.log2` is defined by
well-founded recursion and does not). -/
def log2Fuel : ℕ → ℕ → ℕ
  | 0, _ => 0
  | fuel + 1, n => if n < 2 then 0 else log2Fuel fuel (n / 2) + 1

/-- Floor of the base-2 logarithm of a positive natural (0 at 0): the fuel
`n` dominates the recursion depth. -/
def floorLog2 (n : ℕ) : ℕ := log2Fuel n n

/-- Round-half-even of the dyadic rational `a / 2^t` to an integer, as IEEE
754 rounding does at a tie. -/
def roundDyadic (a t : ℕ) : ℕ :=
  if t = 0 then a
  else
    let fl := a / 2 ^ t
    let rem := a % 2 ^ t
    let half := 2 ^ (t - 1)
    if rem < half then fl
    else if half < rem then fl + 1
    else if fl % 2 = 0 then fl else fl + 1

/-- The value of the IEEE binary64 double nearest to the natural `a`
(round half to even): the identity below `2^53`, otherwise `a` rounded to
53 significant bits. Models CPython's exact int-to-float conversion (which
raises only beyond `2^1024`). -/
def roundNatToDouble (a : ℕ) : ℕ :=
  if a < 2 ^ 53 then a
  else roundDyadic a (floorLog2 a - 52) * 2 ^ (floorLog2 a - 52)

/-- Embeds the expression `int(len(result["text"]) * 0.7)` from
`RuntimeState._send_interim_message` (src/runtime/state.py, line 272), with
IEEE-754 binary64 semantics made exact over ℕ: the literal 0.7 denotes the
double `3152519739159347 / 2^52`; the length is converted to a double
(exact below `2^53`), the product is rounded half-to-even to 53 significant
bits, and the result is truncated toward zero. Faithful to CPython for
every length below `2^1024` (beyond which CPython raises OverflowError);
e.g. it yields 62, 118, 125 at lengths 90, 170, 180, where `7*n/10` would
not (63, 119, 126). -/
def stableCharsFloat (n : ℕ) : ℕ :=
  let a := 3152519739159347 * roundNatToDouble n
  let t := floorLog2 a - 52
  (roundDyadic a t * 2 ^ t) / 2 ^ 52

/-- Embeds `RuntimeState._handle_interim_result` together with
`RuntimeState._send_interim_message` (src/runtime/state.py, lines 220-242
and 262-278): on a failed decode nothing is sent and the connection state is
untouched; on success the connection's last-interim fields are updated and,
when the websocket is still registered, an interim message is sent whose
`stable_chars` is the rough estimate from the text length. -/
def RuntimeState.handle_interim_result (job : DecodeJob)
    (result : DecodeResult) (conn : Option ConnectionAudioState)
    (ws_present : Bool) (now : ℚ) :
    Option ConnectionAudioState × Option InterimMessage :=
  match result.error with
  | some _ => (conn, none)
  | none =>
    let conn' := conn.map (fun c =>
      { c with last_interim_text := result.text, last_interim_time := now })
    if ws_present then
      (conn',
       some { conn := job.conn_id
              text := result.text
              stable_chars := stableCharsFloat result.text.length
              t0 := job.t0
              t1 := job.t1 })
    else (conn', none)

/-- Embeds `RuntimeState._handle_final_result` together with
`RuntimeState._send_final_message` (src/runtime/state.py, lines 244-260 and
280-297): on a failed decode the handler logs, records a failure metric and
returns without sending anything; on success a final message is sent when
the websocket is still registered.  The boolean is the `success` flag passed
to `metrics.record_decode_complete`. -/
def RuntimeState.handle_final_result (job : DecodeJob)
    (result : DecodeResult) (ws_present : Bool) :
    Option FinalMessage × Bool :=
  match result.error with
  | some _ => (none, false)
  | none =>
    (if ws_present then
       some { conn := job.conn_id
              text := result.text
              segments := result.segments
              language := result.language
              t0 := job.t0
              t1 := job.t1 }
     else none, true)

/-- Embeds `RuntimeState.enqueue_interim` (src/runtime/state.py, lines
165-202) for an existing connection: the throttle check, the scheduler
enqueue, and the throttle update that happens only on a successful
enqueue. -/
def RuntimeState.enqueue_interim (sched : PriorityScheduler)
    (throttle : ConnectionThrottle) (current_cooldown_ms : ℕ)
    (job : DecodeJob) (now : ℚ) :
    Bool × PriorityScheduler × ConnectionThrottle :=
  if throttle.should_allow_interim current_cooldown_ms now = false then
    (false, sched, throttle)
  else
    match sched.enqueue_interim job with
    | (true, s') => (true, s', throttle.mark_interim_sent now)
    | (false, s') => (false, s', throttle)

/-!
Definitions taken from the specification's words, for comparison with the
embedded code.
-/

/-- Modelled from the spec: length of the longest common prefix of two
character lists (spec 4.C, `stable_chars`). -/
def lcpLenList : List Char → List Char → ℕ
  | a :: as, b :: bs => if a = b then lcpLenList as bs + 1 else 0
  | _, [] => 0
  | [], _ => 0

/-- Modelled from the spec: length of the longest common prefix of two
strings (spec 4.C: "`stable_chars` = length of the longest common prefix of
`prev_text` and `new_text`"). -/
def lcpLen (s t : String) : ℕ := lcpLenList s.toList t.toList

/-- Embeds `ConnectionAudioState.__init__` (src/audio/buffer.py, lines
141-176). -/
def ConnectionAudioState.init (conn_id : ConnId)
    (sample_rate max_duration_seconds : ℕ) : ConnectionAudioState :=
  { conn_id := conn_id
    ring_buffer := AudioRingBuffer.init sample_rate max_duration_seconds
    in_utterance := false
    utterance_id := 0
    last_audio_time := 0
    utterance_start_time := 0
    last_interim_text := ""
    last_interim_time := 0
    interim_queued_or_inflight := false }

/-- Iterated `AudioRingBuffer.append` over a sequence of chunks; `none` as
soon as one append raises. -/
def appendAll (r : AudioRingBuffer) : List (List ℤ) → Option AudioRingBuffer
  | [] => some r
  | c :: cs =>
    match r.append c with
    | none => none
    | some r' => appendAll r' cs

/-- Abstraction relation between the sample history pushed so far and the
concrete ring-buffer state: the cursor counts the history, the write
position is the cursor modulo the capacity, and every sample of the trailing
capacity window sits at its absolute index modulo the capacity. -/
def RingInv (hist : List ℤ) (r : AudioRingBuffer) : Prop :=
  r.total_samples_written = hist.length ∧
  r.write_pos = hist.length % r.max_samples ∧
  ∀ a : ℕ, a < hist.length → hist.length ≤ a + r.max_samples →
    r.buffer (a % r.max_samples) = hist.getD a 0

/-- Number of samples `get_tail` requests before clamping:
`int(sample_rate * duration_seconds)`. -/
def tailSampleRequest (r : AudioRingBuffer) (duration_seconds : ℚ) : ℕ :=
  (((r.sample_rate : ℚ) * duration_seconds).floor).toNat

/-- Number of samples `get_tail` returns: the request clamped to what was
written and to the capacity. -/
def tailSampleCount (r : AudioRingBuffer) (duration_seconds : ℚ) : ℕ :=
  min (tailSampleRequest r duration_seconds)
    (min r.total_samples_written r.max_samples)

/-!
Concrete fixtures used by the counterexample and witness theorems.
-/

/-- Fixture: a decode job with the given type, id, connection and time. -/
def sampleJob (jt : JobType) (id : String) (c : ConnId) (t : ℚ) : DecodeJob :=
  { job_id := id
    job_type := jt
    conn_id := c
    audio_data := []
    language := "auto"
    created_at := t
    t0 := 0
    t1 := t }

/-- Fixture: the failed-decode result dictionary `{"error": str(e)}`. -/
def sampleErrorResult : DecodeResult :=
  { error := some "decoder boom"
    text := ""
    language := none
    segments := []
    confidence := 0
    decode_time := 0
    job_wait_time := 0 }

/-- Fixture: a successful decode result with the given text. -/
def sampleTextResult (t : String) : DecodeResult :=
  { error := none
    text := t
    language := some "en"
    segments := []
    confidence := 1
    decode_time := 0
    job_wait_time := 0 }

/-- Fixture: `BackpressureManager.__init__` under the default configuration
(`final_hi=6, final_crit=12, interim_hi=20, interim_crit=40`,
`interim_cooldown_ms=220`, `tail_seconds=7.0`, `f_final_burst=2`,
`f_interim_burst=3`). -/
def defaultBackpressure : BackpressureManager :=
  { final_hi := 6
    final_crit := 12
    interim_hi := 20
    interim_crit := 40
    level := BackpressureLevel.NORMAL
    base_cooldown_ms := 220
    base_tail_seconds := 7
    current_cooldown_ms := 220
    current_tail_seconds := 7
    interims_paused := false
    cfg_f_final_burst := 2
    cfg_f_interim_burst := 3 }

/-- Fixture for C1: an interim job of connection c1. -/
def c1I : DecodeJob := sampleJob JobType.INTERIM "i1" "c1" 0

/-- Fixture for C1: a final job of connection c2. -/
def c1F : DecodeJob := sampleJob JobType.FINAL "f1" "c2" 1

/-- Fixture for C1: initial system state under default burst limits. -/
def c1s0 : SystemState := SystemState.init 2 3

/-- Fixture for C1: after enqueueing the interim. -/
def c1s1 : SystemState :=
  { c1s0 with sched := (c1s0.sched.enqueue_interim c1I).2 }

/-- Fixture for C1: after enqueueing the final as well. -/
def c1s2 : SystemState := { c1s1 with sched := c1s1.sched.enqueue_final c1F }

/-- Fixture for C1: after the interim worker dequeues, with the final still
queued. -/
def c1s3 : SystemState :=
  { c1s2 with sched := (get_job_for_type c1s2.sched JobType.INTERIM).2
              interimWorkerJob := some c1I }

/-- Fixture for C2: first interim of connection c1. -/
def c2I1 : DecodeJob := sampleJob JobType.INTERIM "i1" "c1" 0

/-- Fixture for C2: a final of the same connection c1. -/
def c2F : DecodeJob := sampleJob JobType.FINAL "f1" "c1" 1

/-- Fixture for C2: second interim of connection c1. -/
def c2I2 : DecodeJob := sampleJob JobType.INTERIM "i2" "c1" 2

/-- Fixture for C2: initial system state under default burst limits. -/
def c2s0 : SystemState := SystemState.init 2 3

/-- Fixture for C2: after enqueueing the first interim. -/
def c2s1 : SystemState :=
  { c2s0 with sched := (c2s0.sched.enqueue_interim c2I1).2 }

/-- Fixture for C2: the interim worker dequeues the first interim (it is now
in flight). -/
def c2s2 : SystemState :=
  { c2s1 with sched := (get_job_for_type c2s1.sched JobType.INTERIM).2
              interimWorkerJob := some c2I1 }

/-- Fixture for C2: a final for the same connection is enqueued. -/
def c2s3 : SystemState := { c2s2 with sched := c2s2.sched.enqueue_final c2F }

/-- Fixture for C2: the final worker dequeues the final, overwriting the
connection's in-flight map entry while the interim is still decoding. -/
def c2s4 : SystemState :=
  { c2s3 with sched := (get_job_for_type c2s3.sched JobType.FINAL).2
              finalWorkerJob := some c2F }

/-- Fixture for C2: the second interim is offered to the scheduler. -/
def c2s5 : SystemState :=
  { c2s4 with sched := (c2s4.sched.enqueue_interim c2I2).2 }

/-- Fixture for C9: an interim job of connection c9. -/
def c9I : DecodeJob := sampleJob JobType.INTERIM "i9" "c9" 0

/-- Fixture for C9: system state after one accepted interim enqueue. -/
def c9s1 : SystemState :=
  { SystemState.init 2 3 with
    sched := ((SystemState.init 2 3).sched.enqueue_interim c9I).2 }

/-- Fixture for C10: a scheduler whose in-flight map holds an interim of
connection c1, so a fresh interim for c1 is rejected. -/
def c10s : PriorityScheduler :=
  { PriorityScheduler.init 2 3 with
    inflight_by_conn := [("c1", sampleJob JobType.INTERIM "i0" "c1" 0)] }

/-!
Theorems.
-/

/-- C1 counterexample: starting from the initial system state, enqueue one
interim (connection c1) and one final (connection c2); the interim worker's
`_get_job_for_type` then hands the interim to the worker while the final is
still queued, refuting "the system never hands an interim job to a worker
while a final job is still queued". -/
theorem c1_counterexample :
    Reachable 2 3 c1s3 ∧
    c1s3.sched.q_final = [c1F] ∧
    c1s3.interimWorkerJob = some c1I ∧
    c1I.job_type = JobType.INTERIM := by
  refine ⟨?_, by decide, by decide, by decide⟩
  exact ((Reachable.init.step (Step.enqueue_interim c1s0 c1I rfl)).step
    (Step.enqueue_final c1s1 c1F rfl)).step
    (Step.interim_worker_dequeue c1s2 c1I
      ((get_job_for_type c1s2.sched JobType.INTERIM).2) rfl (by decide))

/-- C1 (amended): `PriorityScheduler.get_next_job` does dispatch a final
before any interim whenever the final queue is non-empty and the final burst
limit is positive; but the decode workers bypass `get_next_job`, and the
interim worker's `_get_job_for_type` dequeues the head interim whenever the
interim queue is non-empty and the interim burst limit is positive,
regardless of the final queue. -/
theorem c1_final_priority_amended (s : PriorityScheduler)
    (jf ji : DecodeJob) (qf qi : List DecodeJob) (kf ki : ℕ) :
    (({ s with q_final := jf :: qf,
               f_final_burst := kf + 1 } : PriorityScheduler).get_next_job).1
      = some jf ∧
    (get_job_for_type
        ({ s with q_final := jf :: qf, q_interim := ji :: qi,
                  f_final_burst := kf + 1,
                  f_interim_burst := ki + 1 } : PriorityScheduler)
        JobType.INTERIM).1
      = some ji := by
  constructor
  · simp [PriorityScheduler.get_next_job]
  · simp [get_job_for_type]

/-- C2 code bug: the per-connection interim cap is violated on a reachable
trace.  Interim `i1` of connection c1 is dequeued (in flight); a final of
the same connection is then dequeued by the final worker, overwriting c1's
entry in `inflight_by_conn`; `enqueue_interim` now accepts a second interim
`i2` for c1 (its in-flight check sees only the final), leaving one interim
in flight and one queued for the same connection — contradicting
`enqueue_interim`'s own docstring "If this connection has an interim
in-flight, reject the job". -/
theorem c2_interim_cap_violation :
    Reachable 2 3 c2s5 ∧
    (c2s4.sched.enqueue_interim c2I2).1 = true ∧
    c2s5.interimWorkerJob = some c2I1 ∧
    c2I1.job_type = JobType.INTERIM ∧
    c2I2 ∈ c2s5.sched.q_interim ∧
    queuedOrInFlightInterims c2s5 "c1" = 2 := by
  refine ⟨?_, by decide, by decide, by decide, by decide, by decide⟩
  exact ((((Reachable.init.step (Step.enqueue_interim c2s0 c2I1 rfl)).step
    (Step.interim_worker_dequeue c2s1 c2I1
      ((get_job_for_type c2s1.sched JobType.INTERIM).2) rfl (by decide))).step
    (Step.enqueue_final c2s2 c2F rfl)).step
    (Step.final_worker_dequeue c2s3 c2F
      ((get_job_for_type c2s3.sched JobType.FINAL).2) rfl (by decide))).step
    (Step.enqueue_interim c2s4 c2I2 rfl)

/-- C3 counterexample: under the default configuration, an update with
`|final| = 6 = final_hi` sets level High with `interims_paused = true`, and
`get_burst_limits` then returns interim burst 0, not
`max(1, base/2) = 1` as the claim's table states. -/
theorem c3_counterexample :
    (defaultBackpressure.update 6 0).level = BackpressureLevel.HIGH ∧
    (defaultBackpressure.update 6 0).interims_paused = true ∧
    (defaultBackpressure.update 6 0).get_burst_limits = (2, 0) ∧
    max 1 (3 / 2 : ℕ) = 1 ∧ (0 : ℕ) ≠ 1 := by decide

/-- C3 (amended): the level thresholds, cooldown, tail window and pause flag
follow the claimed table, and the final burst always equals the configured
value; but the interim burst is 0 whenever `interims_paused` is set (High
with `|final| ≥ final_hi`, Critical with `|final| ≥ final_crit`), and only
otherwise equals the table's `max(1, base/2)` / `max(1, base/3)`. -/
theorem c3_backpressure_table_amended (m : BackpressureManager) (qf qi : ℕ) :
    ((m.update qf qi).level = BackpressureLevel.CRITICAL ↔
      (m.final_crit ≤ qf ∨ m.interim_crit ≤ qi)) ∧
    ((m.update qf qi).level = BackpressureLevel.HIGH ↔
      (¬(m.final_crit ≤ qf ∨ m.interim_crit ≤ qi) ∧
        (m.final_hi ≤ qf ∨ m.interim_hi ≤ qi))) ∧
    ((m.update qf qi).level = BackpressureLevel.NORMAL ↔
      (¬(m.final_crit ≤ qf ∨ m.interim_crit ≤ qi) ∧
        ¬(m.final_hi ≤ qf ∨ m.interim_hi ≤ qi))) ∧
    ((m.update qf qi).current_cooldown_ms =
      if m.final_crit ≤ qf ∨ m.interim_crit ≤ qi then m.base_cooldown_ms + 250
      else if m.final_hi ≤ qf ∨ m.interim_hi ≤ qi then m.base_cooldown_ms + 150
      else m.base_cooldown_ms) ∧
    ((m.update qf qi).current_tail_seconds =
      if m.final_crit ≤ qf ∨ m.interim_crit ≤ qi then
        max (3/2 : ℚ) (m.base_tail_seconds / 4)
      else if m.final_hi ≤ qf ∨ m.interim_hi ≤ qi then
        max (3 : ℚ) (m.base_tail_seconds / 2)
      else m.base_tail_seconds) ∧
    ((m.update qf qi).interims_paused =
      if m.final_crit ≤ qf ∨ m.interim_crit ≤ qi then decide (m.final_crit ≤ qf)
      else if m.final_hi ≤ qf ∨ m.interim_hi ≤ qi then decide (m.final_hi ≤ qf)
      else false) ∧
    ((m.update qf qi).get_burst_limits =
      (m.cfg_f_final_burst,
        if m.final_crit ≤ qf ∨ m.interim_crit ≤ qi then
          if m.final_crit ≤ qf then 0 else max 1 (m.cfg_f_interim_burst / 3)
        else if m.final_hi ≤ qf ∨ m.interim_hi ≤ qi then
          if m.final_hi ≤ qf then 0 else max 1 (m.cfg_f_interim_burst / 2)
        else m.cfg_f_interim_burst)) := by
  by_cases h1 : m.final_crit ≤ qf <;> by_cases h2 : m.interim_crit ≤ qi <;>
    by_cases h3 : m.final_hi ≤ qf <;> by_cases h4 : m.interim_hi ≤ qi <;>
      simp [BackpressureManager.update, BackpressureManager.get_burst_limits,
        h1, h2, h3, h4, mul_one_div, div_eq_mul_inv]

/-- Anchor values of the double model of `int(len * 0.7)`, matching
CPython: at lengths 90, 170 and 180 the double product falls just below the
exact multiple and truncates to 62, 118 and 125 (`7*n/10` would give 63,
119, 126), while at 10, 11 and 100 it truncates to 7, 7 and 70. -/
theorem stableCharsFloat_values :
    stableCharsFloat 0 = 0 ∧ stableCharsFloat 1 = 0 ∧
    stableCharsFloat 10 = 7 ∧ stableCharsFloat 11 = 7 ∧
    stableCharsFloat 90 = 62 ∧ stableCharsFloat 170 = 118 ∧
    stableCharsFloat 180 = 125 ∧ stableCharsFloat 100 = 70 := by decide

/-- C4 counterexample: on a fresh connection (previous emitted text empty),
a successful interim decode of "hello world" is emitted with
`stable_chars = int(11 * 0.7) = 7`, whereas the longest common prefix of
`""` and `"hello world"` has length 0; and a successful decode with empty
text is still emitted, whereas the claim requires no emission for empty
text. -/
theorem c4_counterexample :
    (RuntimeState.handle_interim_result (sampleJob JobType.INTERIM "i4" "c4" 0)
        (sampleTextResult "hello world")
        (some (ConnectionAudioState.init "c4" 16000 30)) true 5).2
      = some { conn := "c4", text := "hello world", stable_chars := 7,
               t0 := 0, t1 := 0 } ∧
    lcpLen (ConnectionAudioState.init "c4" 16000 30).last_interim_text
        "hello world" = 0 ∧
    (7 : ℕ) ≠ 0 ∧
    ((RuntimeState.handle_interim_result (sampleJob JobType.INTERIM "i4" "c4" 0)
        (sampleTextResult "")
        (some (ConnectionAudioState.init "c4" 16000 30)) true 5).2).isSome
      = true := by
  refine ⟨by decide, by decide, by decide, by decide⟩

/-- C4 (amended): there is no emit gate — every successful interim decode is
emitted to the client whenever the websocket is still registered, regardless
of the previous text, the length delta or the elapsed time, and the emitted
`stable_chars` is the rough estimate `int(0.7 * len(new_text))` computed
from the new text's length alone (not a common prefix with the previous
text); with no websocket registered nothing is emitted. -/
theorem c4_interim_emit_amended (job : DecodeJob) (result : DecodeResult)
    (conn : Option ConnectionAudioState) (now : ℚ) :
    (RuntimeState.handle_interim_result job { result with error := none }
        conn true now).2
      = some { conn := job.conn_id
               text := result.text
               stable_chars := stableCharsFloat result.text.length
               t0 := job.t0
               t1 := job.t1 } ∧
    (RuntimeState.handle_interim_result job { result with error := none }
        conn false now).2 = none := by
  constructor <;> simp [RuntimeState.handle_interim_result]

/-- C6 counterexample: a failed final decode produces no message at all for
the originating connection (the handler records a failure metric and
returns), refuting "an error event referencing the job is sent to the
originating connection". -/
theorem c6_counterexample :
    RuntimeState.handle_final_result (sampleJob JobType.FINAL "f6" "c6" 0)
      sampleErrorResult true = (none, false) := by decide

/-- C6 (amended): a failed decode (final or interim) is logged and counted
as a failure metric but no error event is sent to the connection and the
connection state is untouched; and the commit point (the ring's utterance
start position) is advanced to the current write position already when the
finalize branch fires — at final-enqueue time, independent of the decode
outcome — so a failed final's audio window is not re-decoded. -/
theorem c6_decode_fail_amended :
    (∀ (job : DecodeJob) (result : DecodeResult) (ws : Bool) (e : String),
      RuntimeState.handle_final_result job { result with error := some e } ws
        = (none, false)) ∧
    (∀ (job : DecodeJob) (result : DecodeResult)
       (conn : Option ConnectionAudioState) (ws : Bool) (now : ℚ) (e : String),
      RuntimeState.handle_interim_result job { result with error := some e }
        conn ws now = (conn, none)) ∧
    (∀ (conn : ConnectionAudioState) (tr : SilenceTracker) (audio : List ℤ)
       (isSp : Bool) (now : ℚ),
      (handle_audio conn tr audio isSp now).all
        (fun x => !x.2.2 ||
          (x.1.ring_buffer.utterance_start_pos == x.1.ring_buffer.write_pos))
        = true) := by
  refine ⟨fun job result ws e => by simp [RuntimeState.handle_final_result],
    fun job result conn ws now e => by
      simp [RuntimeState.handle_interim_result],
    fun conn tr audio isSp now => ?_⟩
  unfold handle_audio
  cases happ : conn.ring_buffer.append audio with
  | none => rfl
  | some ring1 =>
    simp only [Option.all_some]
    by_cases hfin : (tr.update isSp audio.length).should_finalize
    · simp [hfin, ConnectionAudioState.start_utterance,
        AudioRingBuffer.mark_utterance_start, finalize_utterance,
        ConnectionAudioState.end_utterance]
    · simp [hfin]

set_option maxRecDepth 4096 in
/-- C5 counterexample: a single 20 ms chunk (320 samples at 16 kHz)
classified as speech moves a fresh connection from idle to in-utterance,
although only 20 ms < 60 ms of speech has accumulated — there is no
`start_trigger_ms` accumulation in the code. -/
theorem c5_counterexample :
    ((handle_audio (ConnectionAudioState.init "c5" 16000 30)
        (SilenceTracker.init 16000 500)
        (List.replicate 320 1000) true 0).map (fun x => x.1.in_utterance))
      = some true ∧
    (ConnectionAudioState.init "c5" 16000 30).in_utterance = false ∧
    (List.replicate 320 (1000 : ℤ)).length < 16000 * 60 / 1000 := by
  refine ⟨?_, by decide, by decide⟩
  rfl

/-- C5 (amended): the transition to in-utterance ("Idle to Speaking")
happens immediately on any chunk the classifier marks as speech — there is
no `start_trigger_ms` and no speech accumulation; the finalize transition
("Speaking to Idle") fires exactly when the updated silence tracker reports
speech started and at least `end_trigger_ms` worth of silence samples
accumulated since the last speech. -/
theorem c5_vad_hysteresis_amended (conn : ConnectionAudioState)
    (tr : SilenceTracker) (audio : List ℤ) (isSp : Bool) (now : ℚ) :
    ((handle_audio conn tr audio isSp now).all
      (fun x => (!isSp || x.1.in_utterance) &&
        (x.2.2 == (tr.update isSp audio.length).should_finalize)) = true) ∧
    ((!(tr.update isSp audio.length).should_finalize ||
      ((tr.update isSp audio.length).speech_started &&
        decide ((tr.update isSp audio.length).end_silence_samples ≤
          (tr.update isSp audio.length).silence_samples))) = true) := by
  constructor
  · unfold handle_audio
    cases happ : conn.ring_buffer.append audio with
    | none => rfl
    | some ring1 =>
      simp only [Option.all_some]
      by_cases hfin : (tr.update isSp audio.length).should_finalize
      · cases isSp <;>
          simp [hfin, ConnectionAudioState.start_utterance]
      · cases isSp <;>
          by_cases hu : conn.in_utterance <;>
            simp [hfin, hu, ConnectionAudioState.start_utterance]
  · cases hsf : (tr.update isSp audio.length).should_finalize
    · rfl
    · have := hsf
      unfold SilenceTracker.should_finalize at this
      simp only [Bool.and_eq_true, decide_eq_true_eq] at this
      simp [this.1, this.2]

/-- C8 counterexample: a chunk of 9 samples appended to a fresh ring of
capacity 4 makes the wrapped numpy assignment broadcast 5 samples into 4
slots, raising `ValueError` — refuting "accepts a chunk of any size...and
never raises". -/
theorem c8_counterexample :
    ((AudioRingBuffer.init 4 1).append (List.replicate 9 0)).isNone = true ∧
    (List.replicate 9 (0 : ℤ)).length > (AudioRingBuffer.init 4 1).max_samples := by
  constructor
  · rfl
  · decide

/-- C8 (amended): `append` succeeds exactly when the chunk length is at most
`(max_samples - write_pos) + max_samples` (in particular for every chunk of
at most `max_samples` samples); on success it advances the cursor by exactly
the chunk length and wraps the write position; beyond that bound the wrapped
numpy slice assignment raises `ValueError`. -/
theorem c8_append_amended (r : AudioRingBuffer) (audio : List ℤ) :
    ((r.append audio).isSome = true ↔
      audio.length ≤ (r.max_samples - r.write_pos) + r.max_samples) ∧
    ((r.append audio).map (fun r' =>
        (r'.total_samples_written, r'.write_pos, r'.max_samples)))
      = ((r.append audio).map (fun _ =>
          (r.total_samples_written + audio.length,
            (r.write_pos + audio.length) % r.max_samples, r.max_samples))) := by
  by_cases h1 : audio.length ≤ r.max_samples - r.write_pos
  · constructor
    · simp [AudioRingBuffer.append, h1]; omega
    · simp [AudioRingBuffer.append, h1]
  · by_cases h2 : audio.length - (r.max_samples - r.write_pos) ≤ r.max_samples
    · constructor
      · simp [AudioRingBuffer.append, h1, h2]; omega
      · simp [AudioRingBuffer.append, h1, h2]
    · constructor
      · simp [AudioRingBuffer.append, h1, h2]; omega
      · simp [AudioRingBuffer.append, h1, h2]

/-- C10: when `enqueue_interim` rejects a job (returns False), the scheduler
state — both queues, both per-connection maps and every statistics counter —
is unchanged, and the caller `RuntimeState.enqueue_interim` then leaves the
connection throttle's last-interim timestamp untouched. -/
theorem c10_reject_side_effect_free (s : PriorityScheduler) (job : DecodeJob)
    (h : (s.enqueue_interim job).1 = false) :
    (s.enqueue_interim job).2 = s ∧
    ∀ (throttle : ConnectionThrottle) (cooldown : ℕ) (now : ℚ),
      RuntimeState.enqueue_interim s throttle cooldown job now
        = (false, s, throttle) := by
  have hs : (s.enqueue_interim job).2 = s := by
    unfold PriorityScheduler.enqueue_interim at h ⊢
    split at h
    · split
      · rfl
      · simp_all
    · simp_all
  have hpair : s.enqueue_interim job = (false, s) := by
    cases hq : s.enqueue_interim job with
    | mk a b =>
      rw [hq] at h hs
      simp only at h hs
      rw [h, hs]
  refine ⟨hs, fun throttle cooldown now => ?_⟩
  unfold RuntimeState.enqueue_interim
  split
  · rfl
  · rw [hpair]

/-- Helper: removing a member shortens a list by exactly one. -/
theorem removeFirst_length_of_mem {l : List DecodeJob} {j : DecodeJob}
    (h : j ∈ l) : (removeFirst l j).length + 1 = l.length := by
  induction l with
  | nil => cases h
  | cons x xs ih =>
    by_cases hx : x = j
    · simp [removeFirst, hx]
    · rcases List.mem_cons.mp h with h1 | h2
      · exact absurd h1.symm hx
      · simp [removeFirst, hx, ih h2]

/-- Helper: `removeFirst` only drops elements. -/
theorem mem_of_mem_removeFirst {l : List DecodeJob} {j x : DecodeJob}
    (h : x ∈ removeFirst l j) : x ∈ l := by
  induction l with
  | nil => simp [removeFirst] at h
  | cons a as ih =>
    by_cases ha : a = j
    · simp only [removeFirst, if_pos ha] at h
      exact List.mem_cons_of_mem a h
    · simp only [removeFirst, if_neg ha] at h
      rcases List.mem_cons.mp h with h1 | h2
      · exact h1 ▸ List.mem_cons_self a as
      · exact List.mem_cons_of_mem a (ih h2)

/-- Helper: the fields of `enqueue_interim`'s post-state that the
conservation argument needs — the final queue is untouched, new interim
queue members are the new job or old members, and the enqueued counter grows
exactly with the coalesced counter plus the queue length. -/
theorem enqueue_interim_effects (s : PriorityScheduler) (job : DecodeJob) :
    (s.enqueue_interim job).2.q_final = s.q_final ∧
    (∀ x ∈ (s.enqueue_interim job).2.q_interim, x = job ∨ x ∈ s.q_interim) ∧
    (s.enqueue_interim job).2.stats_enqueued_interims + s.stats_coalesced
        + s.q_interim.length
      = s.stats_enqueued_interims + (s.enqueue_interim job).2.stats_coalesced
        + (s.enqueue_interim job).2.q_interim.length := by
  simp only [PriorityScheduler.enqueue_interim]
  split
  · exact ⟨rfl, fun x hx => Or.inr hx, rfl⟩
  · split
    · rename_i old_job heq
      split
      · rename_i hmem
        have hlen := removeFirst_length_of_mem hmem
        refine ⟨rfl, fun x hx => ?_, ?_⟩
        · rcases List.mem_append.mp hx with hx | hx
          · exact Or.inr (mem_of_mem_removeFirst hx)
          · simp only [List.mem_singleton] at hx
            exact Or.inl hx
        · simp only [List.length_append, List.length_singleton]
          omega
      · refine ⟨rfl, fun x hx => ?_, ?_⟩
        · rcases List.mem_append.mp hx with hx | hx
          · exact Or.inr hx
          · simp only [List.mem_singleton] at hx
            exact Or.inl hx
        · simp only [List.length_append, List.length_singleton]
          omega
    · refine ⟨rfl, fun x hx => ?_, ?_⟩
      · rcases List.mem_append.mp hx with hx | hx
        · exact Or.inr hx
        · simp only [List.mem_singleton] at hx
          exact Or.inl hx
      · simp only [List.length_append, List.length_singleton]
        omega

/-- Helper: effect of a final-worker dequeue on the scheduler state. -/
theorem get_job_final_effects (s : PriorityScheduler) (job : DecodeJob)
    (sched' : PriorityScheduler)
    (h : get_job_for_type s JobType.FINAL = (some job, sched')) :
    job ∈ s.q_final ∧ (∀ x ∈ sched'.q_final, x ∈ s.q_final) ∧
    sched'.q_interim = s.q_interim ∧
    sched'.stats_enqueued_interims = s.stats_enqueued_interims ∧
    sched'.stats_coalesced = s.stats_coalesced := by
  cases hq : s.q_final with
  | nil => simp [get_job_for_type, hq] at h
  | cons a rest =>
    simp only [get_job_for_type, hq, Prod.mk.injEq, Option.some.injEq] at h
    obtain ⟨h1, h2⟩ := h
    subst h2
    subst h1
    exact ⟨List.mem_cons_self a rest, fun x hx => List.mem_cons_of_mem a hx,
      rfl, rfl, rfl⟩

/-- Helper: effect of an interim-worker dequeue on the scheduler state. -/
theorem get_job_interim_effects (s : PriorityScheduler) (job : DecodeJob)
    (sched' : PriorityScheduler)
    (h : get_job_for_type s JobType.INTERIM = (some job, sched')) :
    job ∈ s.q_interim ∧ (∀ x ∈ sched'.q_interim, x ∈ s.q_interim) ∧
    sched'.q_final = s.q_final ∧
    sched'.stats_enqueued_interims = s.stats_enqueued_interims ∧
    sched'.stats_coalesced = s.stats_coalesced ∧
    sched'.q_interim.length + 1 = s.q_interim.length := by
  cases hq : s.q_interim with
  | nil => simp [get_job_for_type, hq] at h
  | cons a rest =>
    simp only [get_job_for_type, hq] at h
    split at h
    · simp only [Prod.mk.injEq, Option.some.injEq] at h
      obtain ⟨h1, h2⟩ := h
      subst h2
      subst h1
      exact ⟨List.mem_cons_self a rest, fun x hx => List.mem_cons_of_mem a hx,
        rfl, rfl, rfl, rfl⟩
    · simp at h

/-- Helper: `mark_job_complete` touches only the in-flight map. -/
theorem mark_job_complete_effects (s : PriorityScheduler) (job : DecodeJob) :
    (s.mark_job_complete job).q_final = s.q_final ∧
    (s.mark_job_complete job).q_interim = s.q_interim ∧
    (s.mark_job_complete job).stats_enqueued_interims
      = s.stats_enqueued_interims ∧
    (s.mark_job_complete job).stats_coalesced = s.stats_coalesced := by
  unfold PriorityScheduler.mark_job_complete
  split <;> exact ⟨rfl, rfl, rfl, rfl⟩

/-- Helper: the inductive invariant of the dispatch pipeline — queues and
worker slots are well-typed and the interim counts balance: every accepted
interim enqueue is accounted for by exactly one of the coalesced counter,
the completed-decode counter, the in-flight worker slots or the current
interim queue. -/
theorem reachable_invariant (ffb fib : ℕ) (s : SystemState)
    (h : Reachable ffb fib s) :
    (∀ j ∈ s.sched.q_final, j.job_type = JobType.FINAL) ∧
    (∀ j ∈ s.sched.q_interim, j.job_type = JobType.INTERIM) ∧
    (∀ j, s.finalWorkerJob = some j → j.job_type = JobType.FINAL) ∧
    (∀ j, s.interimWorkerJob = some j → j.job_type = JobType.INTERIM) ∧
    s.sched.stats_enqueued_interims
      = s.sched.stats_coalesced + s.decoded_interims + inFlightInterims s
        + s.sched.q_interim.length := by
  induction h with
  | init =>
    refine ⟨?_, ?_, ?_, ?_, rfl⟩ <;> simp [SystemState.init, PriorityScheduler.init]
  | @step s1 s2 hr st ih =>
    obtain ⟨hF, hI, hFW, hIW, hbal⟩ := ih
    cases st with
    | enqueue_final job htype =>
      refine ⟨?_, hI, hFW, hIW, ?_⟩
      · intro j hj
        simp only [PriorityScheduler.enqueue_final] at hj
        rcases List.mem_append.mp hj with hj | hj
        · exact hF j hj
        · simp only [List.mem_singleton] at hj
          exact hj ▸ htype
      · simpa [PriorityScheduler.enqueue_final, inFlightInterims] using hbal
    | enqueue_interim job htype =>
      obtain ⟨hqf, hmem, hstats⟩ := enqueue_interim_effects s1.sched job
      refine ⟨?_, ?_, hFW, hIW, ?_⟩
      · intro j hj
        simp only at hj
        rw [hqf] at hj
        exact hF j hj
      · intro j hj
        rcases hmem j hj with rfl | hj'
        · exact htype
        · exact hI j hj'
      · simp only [inFlightInterims] at hbal ⊢
        omega
    | final_worker_dequeue job sched' hidle hget =>
      obtain ⟨hjm, hsub, hqi, hen, hco⟩ :=
        get_job_final_effects s1.sched job sched' hget
      have hjt : job.job_type = JobType.FINAL := hF job hjm
      refine ⟨fun j hj => hF j (hsub j hj), fun j hj => hI j (hqi ▸ hj),
        ?_, hIW, ?_⟩
      · intro j hj
        simp only [Option.some.injEq] at hj
        exact hj ▸ hjt
      · simp only [inFlightInterims, slotInterimCount, hidle] at hbal ⊢
        rw [hqi, hen, hco]
        simp only [hjt]
        omega
    | interim_worker_dequeue job sched' hidle hget =>
      obtain ⟨hjm, hsub, hqf, hen, hco, hlen⟩ :=
        get_job_interim_effects s1.sched job sched' hget
      have hjt : job.job_type = JobType.INTERIM := hI job hjm
      refine ⟨fun j hj => hF j (hqf ▸ hj), fun j hj => hI j (hsub j hj),
        hFW, ?_, ?_⟩
      · intro j hj
        simp only [Option.some.injEq] at hj
        exact hj ▸ hjt
      · simp only [inFlightInterims, slotInterimCount, hidle] at hbal ⊢
        rw [hen, hco]
        simp only [hjt]
        omega
    | final_worker_complete job hjob =>
      obtain ⟨hqf, hqi, hen, hco⟩ := mark_job_complete_effects s1.sched job
      have hjt : job.job_type = JobType.FINAL := hFW job hjob
      refine ⟨fun j hj => hF j (hqf ▸ hj), fun j hj => hI j (hqi ▸ hj),
        fun j hj => by simp at hj, hIW, ?_⟩
      · simp only [inFlightInterims, slotInterimCount, hjob] at hbal ⊢
        rw [hqi, hen, hco]
        simp only [hjt] at hbal ⊢
        omega
    | interim_worker_complete job hjob =>
      obtain ⟨hqf, hqi, hen, hco⟩ := mark_job_complete_effects s1.sched job
      have hjt : job.job_type = JobType.INTERIM := hIW job hjob
      refine ⟨fun j hj => hF j (hqf ▸ hj), fun j hj => hI j (hqi ▸ hj),
        hFW, fun j hj => by simp at hj, ?_⟩
      · simp only [inFlightInterims, slotInterimCount, hjob] at hbal ⊢
        rw [hqi, hen, hco]
        simp only [hjt] at hbal ⊢
        omega
    | set_burst_limits ffb' fib' =>
      exact ⟨hF, hI, hFW, hIW, by
        simpa [PriorityScheduler.set_burst_limits, inFlightInterims] using hbal⟩

/-- C9 counterexample: one accepted interim enqueue from the initial state
reaches a state where the queued job is in none of the claim's three
categories, so `enqueued − coalesced − decoded − in-flight = 1`, not 0. -/
theorem c9_counterexample :
    Reachable 2 3 c9s1 ∧
    c9s1.sched.stats_enqueued_interims = 1 ∧
    c9s1.sched.stats_coalesced = 0 ∧
    c9s1.decoded_interims = 0 ∧
    inFlightInterims c9s1 = 0 ∧
    c9s1.sched.stats_enqueued_interims - c9s1.sched.stats_coalesced
      - c9s1.decoded_interims - inFlightInterims c9s1 = 1 :=
  ⟨Reachable.init.step (Step.enqueue_interim (SystemState.init 2 3) c9I rfl),
    by decide, by decide, by decide, by decide, by decide⟩

/-- C9 (amended): at every reachable state, the interim counts balance once
the jobs still sitting in the coalescing queue are counted as well:
`enqueued = coalesced + decoded + in-flight + queued` — every accepted
interim enqueue is accounted for by exactly one of the coalesced counter,
the completed decodes, the worker slots, or the current interim queue; no
job is counted twice or lost. -/
theorem c9_interim_conservation_amended (ffb fib : ℕ) (s : SystemState)
    (h : Reachable ffb fib s) :
    s.sched.stats_enqueued_interims
      = s.sched.stats_coalesced + s.decoded_interims + inFlightInterims s
        + s.sched.q_interim.length :=
  (reachable_invariant ffb fib s h).2.2.2.2

/-- C9 witness: the amended conservation law evaluated at the concrete
reachable state with one queued interim. -/
theorem c9_interim_conservation_amended_witness :
    c9s1.sched.stats_enqueued_interims
      = c9s1.sched.stats_coalesced + c9s1.decoded_interims
        + inFlightInterims c9s1 + c9s1.sched.q_interim.length :=
  c9_interim_conservation_amended 2 3 c9s1
    (Reachable.init.step (Step.enqueue_interim (SystemState.init 2 3) c9I rfl))

/-- Helper: `getD` on the left part of an append. -/
theorem getD_append_left {l l' : List ℤ} {i : ℕ} (h : i < l.length) (d : ℤ) :
    (l ++ l').getD i d = l.getD i d := by
  induction l generalizing i with
  | nil => simp at h
  | cons a as ih =>
    cases i with
    | zero => rfl
    | succ j => exact ih (by simpa using h) -- length bound for the tail

/-- Helper: `getD` on the right part of an append. -/
theorem getD_append_right {l l' : List ℤ} {i : ℕ} (h : l.length ≤ i) (d : ℤ) :
    (l ++ l').getD i d = l'.getD (i - l.length) d := by
  induction l generalizing i with
  | nil => simp
  | cons a as ih =>
    cases i with
    | zero => simp at h
    | succ j =>
      simp only [List.cons_append, List.getD_cons_succ, List.length_cons]
      rw [ih (by simpa using h)]
      congr 1
      omega

/-- Helper: `getD` inside a `take`. -/
theorem getD_take {l : List ℤ} {k i : ℕ} (h : i < k) (d : ℤ) :
    (l.take k).getD i d = l.getD i d := by
  induction l generalizing k i with
  | nil => simp
  | cons a as ih =>
    cases k with
    | zero => omega
    | succ k' =>
      cases i with
      | zero => rfl
      | succ j => exact ih (by omega) -- index stays inside the shorter take

/-- Helper: `getD` inside a `drop`. -/
theorem getD_drop (l : List ℤ) (k i : ℕ) (d : ℤ) :
    (l.drop k).getD i d = l.getD (k + i) d := by
  induction l generalizing k with
  | nil => simp
  | cons a as ih =>
    cases k with
    | zero => simp
    | succ k' =>
      simp only [List.drop_succ_cons]
      rw [ih k']
      have : k' + 1 + i = (k' + i) + 1 := by omega
      rw [this, List.getD_cons_succ]

/-- Helper: two congruent numbers in a window shorter than the modulus are
equal. -/
theorem window_mod_inj {maxS x y : ℕ} (hxy : x ≤ y) (hlt : y < x + maxS)
    (hmod : x % maxS = y % maxS) : x = y := by
  have hdvd : maxS ∣ y - x := (Nat.modEq_iff_dvd' hxy).mp hmod
  rcases Nat.eq_zero_or_pos (y - x) with h0 | hpos
  · omega
  · have := Nat.le_of_dvd hpos hdvd
    omega

/-- Helper: a successful `append` preserves the ring abstraction — the new
state abstracts the old history extended by the chunk. -/
theorem ringInv_append {hist : List ℤ} {r r' : AudioRingBuffer}
    {audio : List ℤ} (hmax : 0 < r.max_samples) (hinv : RingInv hist r)
    (happ : r.append audio = some r') :
    RingInv (hist ++ audio) r' ∧ r'.max_samples = r.max_samples ∧
    r'.sample_rate = r.sample_rate := by
  obtain ⟨htot, hwp, hbuf⟩ := hinv
  have hwplt : r.write_pos < r.max_samples := by
    rw [hwp]; exact Nat.mod_lt _ hmax
  unfold AudioRingBuffer.append at happ
  by_cases h1 : audio.length ≤ r.max_samples - r.write_pos
  · rw [if_pos h1] at happ
    have hr' := Option.some.inj happ
    subst hr'
    refine ⟨⟨?_, ?_, ?_⟩, rfl, rfl⟩
    · simp [htot]
    · show (r.write_pos + audio.length) % r.max_samples
        = (hist ++ audio).length % r.max_samples
      simp only [List.length_append]
      rw [hwp, Nat.mod_add_mod]
    · intro a ha hla
      simp only [List.length_append] at ha hla
      show writeSlice r.buffer r.write_pos audio (a % r.max_samples)
        = (hist ++ audio).getD a 0
      by_cases hnew : hist.length ≤ a
      · have hd : a - hist.length < audio.length := by omega
        have hlt2 : r.write_pos + (a - hist.length) < r.max_samples := by omega
        have hidx : a % r.max_samples = r.write_pos + (a - hist.length) := by
          calc a % r.max_samples
              = (hist.length + (a - hist.length)) % r.max_samples := by
                rw [Nat.add_sub_cancel' hnew]
            _ = (hist.length % r.max_samples + (a - hist.length))
                  % r.max_samples := (Nat.mod_add_mod _ _ _).symm
            _ = (r.write_pos + (a - hist.length)) % r.max_samples := by rw [hwp]
            _ = r.write_pos + (a - hist.length) := Nat.mod_eq_of_lt hlt2
        rw [hidx]
        unfold writeSlice
        rw [if_pos ⟨Nat.le_add_right _ _, by omega⟩]
        have hcancel : r.write_pos + (a - hist.length) - r.write_pos
            = a - hist.length := by omega
        rw [hcancel, getD_append_right hnew]
      · push_neg at hnew
        have hold := hbuf a hnew (by omega)
        have hamod : a % r.max_samples < r.max_samples := Nat.mod_lt _ hmax
        have hnotin : ¬ (r.write_pos ≤ a % r.max_samples ∧
            a % r.max_samples < r.write_pos + audio.length) := by
          rintro ⟨hge, hlt2⟩
          have helt : a % r.max_samples - r.write_pos < audio.length := by omega
          have hlt3 : r.write_pos + (a % r.max_samples - r.write_pos)
              < r.max_samples := by omega
          have ha2 : (hist.length + (a % r.max_samples - r.write_pos))
              % r.max_samples = a % r.max_samples := by
            calc (hist.length + (a % r.max_samples - r.write_pos))
                  % r.max_samples
                = (hist.length % r.max_samples
                    + (a % r.max_samples - r.write_pos)) % r.max_samples :=
                  (Nat.mod_add_mod _ _ _).symm
              _ = (r.write_pos + (a % r.max_samples - r.write_pos))
                    % r.max_samples := by rw [hwp]
              _ = r.write_pos + (a % r.max_samples - r.write_pos) :=
                  Nat.mod_eq_of_lt hlt3
              _ = a % r.max_samples := by omega
          have heq := @window_mod_inj r.max_samples a
            (hist.length + (a % r.max_samples - r.write_pos))
            (by omega) (by omega) (by rw [ha2])
          omega
        unfold writeSlice
        rw [if_neg hnotin, hold]
        exact (getD_append_left hnew 0).symm
  · rw [if_neg h1] at happ
    by_cases h2 : audio.length - (r.max_samples - r.write_pos)
        ≤ r.max_samples
    · rw [if_pos h2] at happ
      have hr' := Option.some.inj happ
      subst hr'
      have hspace : r.max_samples - r.write_pos < audio.length := by omega
      have hlen_take : (audio.take (r.max_samples - r.write_pos)).length
          = r.max_samples - r.write_pos := by
        simp only [List.length_take]; omega
      have hlen_drop : (audio.drop (r.max_samples - r.write_pos)).length
          = audio.length - (r.max_samples - r.write_pos) := by simp
      refine ⟨⟨?_, ?_, ?_⟩, rfl, rfl⟩
      · simp [htot]
      · show (r.write_pos + audio.length) % r.max_samples
          = (hist ++ audio).length % r.max_samples
        simp only [List.length_append]
        rw [hwp, Nat.mod_add_mod]
      · intro a ha hla
        simp only [List.length_append] at ha hla
        show writeSlice (writeSlice r.buffer r.write_pos
            (audio.take (r.max_samples - r.write_pos))) 0
            (audio.drop (r.max_samples - r.write_pos)) (a % r.max_samples)
          = (hist ++ audio).getD a 0
        by_cases hnew : hist.length ≤ a
        · have hdn : a - hist.length < audio.length := by omega
          by_cases hds : a - hist.length < r.max_samples - r.write_pos
          · have hlt2 : r.write_pos + (a - hist.length) < r.max_samples := by
              omega
            have hidx : a % r.max_samples
                = r.write_pos + (a - hist.length) := by
              calc a % r.max_samples
                  = (hist.length + (a - hist.length)) % r.max_samples := by
                    rw [Nat.add_sub_cancel' hnew]
                _ = (hist.length % r.max_samples + (a - hist.length))
                      % r.max_samples := (Nat.mod_add_mod _ _ _).symm
                _ = (r.write_pos + (a - hist.length)) % r.max_samples := by
                    rw [hwp]
                _ = r.write_pos + (a - hist.length) := Nat.mod_eq_of_lt hlt2
            have hout : ¬ (0 ≤ r.write_pos + (a - hist.length) ∧
                r.write_pos + (a - hist.length)
                  < 0 + (audio.drop (r.max_samples - r.write_pos)).length) := by
              rw [hlen_drop]
              rintro ⟨-, hlt3⟩
              omega
            rw [hidx]
            unfold writeSlice
            rw [if_neg hout,
              if_pos ⟨Nat.le_add_right _ _, by rw [hlen_take]; omega⟩]
            have hcancel : r.write_pos + (a - hist.length) - r.write_pos
                = a - hist.length := by omega
            rw [hcancel, getD_take hds, getD_append_right hnew]
          · push_neg at hds
            have hlt4 : a - hist.length - (r.max_samples - r.write_pos)
                < r.max_samples := by omega
            have hx : r.write_pos + (a - hist.length)
                = r.max_samples
                  + (a - hist.length - (r.max_samples - r.write_pos)) := by
              omega
            have hidx : a % r.max_samples
                = a - hist.length - (r.max_samples - r.write_pos) := by
              calc a % r.max_samples
                  = (hist.length + (a - hist.length)) % r.max_samples := by
                    rw [Nat.add_sub_cancel' hnew]
                _ = (hist.length % r.max_samples + (a - hist.length))
                      % r.max_samples := (Nat.mod_add_mod _ _ _).symm
                _ = (r.write_pos + (a - hist.length)) % r.max_samples := by
                    rw [hwp]
                _ = (r.max_samples
                      + (a - hist.length - (r.max_samples - r.write_pos)))
                      % r.max_samples := by rw [hx]
                _ = (a - hist.length - (r.max_samples - r.write_pos))
                      % r.max_samples := Nat.add_mod_left _ _
                _ = a - hist.length - (r.max_samples - r.write_pos) :=
                    Nat.mod_eq_of_lt hlt4
            rw [hidx]
            unfold writeSlice
            rw [if_pos ⟨Nat.zero_le _, by rw [Nat.zero_add, hlen_drop]; omega⟩]
            rw [Nat.sub_zero, getD_drop]
            have hback : (r.max_samples - r.write_pos)
                + (a - hist.length - (r.max_samples - r.write_pos))
                = a - hist.length := by omega
            rw [hback, getD_append_right hnew]
        · push_neg at hnew
          have hold := hbuf a hnew (by omega)
          have hamod : a % r.max_samples < r.max_samples := Nat.mod_lt _ hmax
          have hout : ¬ (0 ≤ a % r.max_samples ∧
              a % r.max_samples
                < 0 + (audio.drop (r.max_samples - r.write_pos)).length) := by
            rw [hlen_drop]
            rintro ⟨-, hlt3⟩
            have ha2 : (hist.length + (r.max_samples - r.write_pos)
                + a % r.max_samples) % r.max_samples = a % r.max_samples := by
              calc (hist.length + (r.max_samples - r.write_pos)
                    + a % r.max_samples) % r.max_samples
                  = (hist.length + ((r.max_samples - r.write_pos)
                      + a % r.max_samples)) % r.max_samples := by
                    rw [Nat.add_assoc]
                _ = (hist.length % r.max_samples
                      + ((r.max_samples - r.write_pos) + a % r.max_samples))
                      % r.max_samples := (Nat.mod_add_mod _ _ _).symm
                _ = (r.write_pos + ((r.max_samples - r.write_pos)
                      + a % r.max_samples)) % r.max_samples := by rw [hwp]
                _ = (r.max_samples + a % r.max_samples) % r.max_samples := by
                    congr 1; omega
                _ = a % r.max_samples % r.max_samples := Nat.add_mod_left _ _
                _ = a % r.max_samples := Nat.mod_eq_of_lt hamod
            have heq := @window_mod_inj r.max_samples a
              (hist.length + (r.max_samples - r.write_pos)
                + a % r.max_samples)
              (by omega) (by omega) (by rw [ha2])
            omega
          have hin : ¬ (r.write_pos ≤ a % r.max_samples ∧
              a % r.max_samples < r.write_pos
                + (audio.take (r.max_samples - r.write_pos)).length) := by
            rw [hlen_take]
            rintro ⟨hge, hlt3⟩
            have hlt5 : r.write_pos + (a % r.max_samples - r.write_pos)
                < r.max_samples := by omega
            have ha2 : (hist.length + (a % r.max_samples - r.write_pos))
                % r.max_samples = a % r.max_samples := by
              calc (hist.length + (a % r.max_samples - r.write_pos))
                    % r.max_samples
                  = (hist.length % r.max_samples
                      + (a % r.max_samples - r.write_pos)) % r.max_samples :=
                    (Nat.mod_add_mod _ _ _).symm
                _ = (r.write_pos + (a % r.max_samples - r.write_pos))
                      % r.max_samples := by rw [hwp]
                _ = r.write_pos + (a % r.max_samples - r.write_pos) :=
                    Nat.mod_eq_of_lt hlt5
                _ = a % r.max_samples := by omega
            have heq := @window_mod_inj r.max_samples a
              (hist.length + (a % r.max_samples - r.write_pos))
              (by omega) (by omega) (by rw [ha2])
            omega
          unfold writeSlice
          rw [if_neg hout, if_neg hin, hold]
          exact (getD_append_left hnew 0).symm
    · rw [if_neg h2] at happ
      simp at happ

/-- Helper: a ring built by successful appends from a fresh buffer abstracts
the concatenated chunk history, and keeps its capacity and sample rate. -/
theorem appendAll_inv (chunks : List (List ℤ)) (hist : List ℤ)
    (r r' : AudioRingBuffer) (hmax : 0 < r.max_samples)
    (hinv : RingInv hist r) (happ : appendAll r chunks = some r') :
    RingInv (hist ++ chunks.flatten) r' ∧ r'.max_samples = r.max_samples ∧
    r'.sample_rate = r.sample_rate := by
  induction chunks generalizing hist r with
  | nil =>
    simp only [appendAll] at happ
    have hr' := Option.some.inj happ
    subst hr'
    simpa using hinv
  | cons c cs ih =>
    simp only [appendAll] at happ
    cases ha : r.append c with
    | none => rw [ha] at happ; simp at happ
    | some r1 =>
      rw [ha] at happ
      obtain ⟨hinv1, hmax1, hsr1⟩ := ringInv_append hmax hinv ha
      obtain ⟨hinv2, hmax2, hsr2⟩ :=
        ih (hist ++ c) r1 (by rw [hmax1]; exact hmax) hinv1 happ
      refine ⟨?_, hmax2.trans hmax1, hsr2.trans hsr1⟩
      simpa [List.append_assoc] using hinv2

/-- Helper: `get_tail`'s slice arithmetic — when the write position is the
cursor modulo the capacity, the returned list reads the last
`tailSampleCount` absolute positions of the buffer modulo the capacity. -/
theorem get_tail_eq (r : AudioRingBuffer) (q : ℚ)
    (hmax : 0 < r.max_samples)
    (hwp : r.write_pos = r.total_samples_written % r.max_samples) :
    r.get_tail q = (List.range (tailSampleCount r q)).map
      (fun i => r.buffer ((r.total_samples_written - tailSampleCount r q + i)
        % r.max_samples)) := by
  have hwplt : r.write_pos < r.max_samples := by
    rw [hwp]; exact Nat.mod_lt _ hmax
  have hm_le_max : tailSampleCount r q ≤ r.max_samples :=
    le_trans (min_le_right _ _) (min_le_right _ _)
  have hm_le_tot : tailSampleCount r q ≤ r.total_samples_written :=
    le_trans (min_le_right _ _) (min_le_left _ _)
  obtain ⟨k, hk⟩ : ∃ k, r.total_samples_written
      = r.max_samples * k + r.write_pos := by
    refine ⟨r.total_samples_written / r.max_samples, ?_⟩
    rw [hwp]
    exact (Nat.div_add_mod _ _).symm
  show (if tailSampleCount r q = 0 then ([] : List ℤ) else _) = _
  by_cases hm0 : tailSampleCount r q = 0
  · rw [if_pos hm0, hm0]
    rfl
  · rw [if_neg hm0]
    have hfold : min (((r.sample_rate : ℚ) * q).floor.toNat)
        (min r.total_samples_written r.max_samples) = tailSampleCount r q :=
      rfl
    rw [hfold]
    by_cases hstart : (r.write_pos + r.max_samples - tailSampleCount r q)
        % r.max_samples < r.write_pos
    · -- contiguous read: requires m ≤ write_pos, start = write_pos − m
      have hm_le_wp : tailSampleCount r q ≤ r.write_pos := by
        by_contra hgt
        push_neg at hgt
        have : r.write_pos + r.max_samples - tailSampleCount r q
            < r.max_samples := by omega
        rw [Nat.mod_eq_of_lt this] at hstart
        omega
      have hstart_eq : (r.write_pos + r.max_samples - tailSampleCount r q)
          % r.max_samples = r.write_pos - tailSampleCount r q := by
        have hx : r.write_pos + r.max_samples - tailSampleCount r q
            = r.max_samples + (r.write_pos - tailSampleCount r q) := by omega
        rw [hx, Nat.add_mod_left, Nat.mod_eq_of_lt (by omega)]
      rw [if_pos hstart]
      rw [hstart_eq]
      apply List.ext_getElem
      · simp only [List.length_map, List.length_range]
        omega
      · intro i h1 h2
        simp only [List.getElem_map, List.getElem_range]
        congr 1
        have hi : i < tailSampleCount r q := by
          simp only [List.length_map, List.length_range] at h1
          omega
        have hval : r.total_samples_written - tailSampleCount r q + i
            = r.max_samples * k
              + (r.write_pos - tailSampleCount r q + i) := by omega
        rw [hval, Nat.mul_add_mod,
          Nat.mod_eq_of_lt (by omega)]
    · -- wrapped read: requires write_pos < m, start = write_pos + cap − m
      have hwp_lt_m : r.write_pos < tailSampleCount r q := by
        by_contra hle
        push_neg at hle
        have hx : r.write_pos + r.max_samples - tailSampleCount r q
            = r.max_samples + (r.write_pos - tailSampleCount r q) := by omega
        rw [hx, Nat.add_mod_left, Nat.mod_eq_of_lt (by omega)] at hstart
        omega
      have hk1 : 1 ≤ k := by
        by_contra hk0
        push_neg at hk0
        interval_cases k
        · omega
      have hstart_eq : (r.write_pos + r.max_samples - tailSampleCount r q)
          % r.max_samples
          = r.write_pos + r.max_samples - tailSampleCount r q := by
        exact Nat.mod_eq_of_lt (by omega)
      rw [if_neg hstart]
      rw [hstart_eq]
      apply List.ext_getElem
      · simp only [List.length_append, List.length_map, List.length_range]
        omega
      · intro i h1 h2
        simp only [List.length_append, List.length_map, List.length_range]
          at h1
        simp only [List.getElem_map, List.getElem_range]
        by_cases hi : i < r.max_samples
            - (r.write_pos + r.max_samples - tailSampleCount r q)
        · rw [List.getElem_append_left (by
            simp only [List.length_map, List.length_range]; omega)]
          simp only [List.getElem_map, List.getElem_range]
          congr 1
          have hval : r.total_samples_written - tailSampleCount r q + i
              = r.max_samples * (k - 1)
                + (r.write_pos + r.max_samples - tailSampleCount r q + i) := by
            have : r.max_samples * k
                = r.max_samples * (k - 1) + r.max_samples := by
              cases k with
              | zero => omega
              | succ k' => simp [Nat.mul_succ]
            omega
          rw [hval, Nat.mul_add_mod,
            Nat.mod_eq_of_lt (by omega)]
        · rw [List.getElem_append_right (by
            simp only [List.length_map, List.length_range]; omega)]
          simp only [List.getElem_map, List.getElem_range,
            List.length_map, List.length_range]
          congr 1
          have hval : r.total_samples_written - tailSampleCount r q + i
              = r.max_samples * k
                + (i - (r.max_samples
                    - (r.write_pos + r.max_samples - tailSampleCount r q))) := by
            omega
          rw [hval, Nat.mul_add_mod,
            Nat.mod_eq_of_lt (by omega)]

/-- Helper: reading the last `m` positions of a list through `getD` is
`drop`. -/
theorem range_map_getD (l : List ℤ) (m : ℕ) (hm : m ≤ l.length) :
    (List.range m).map (fun i => l.getD (l.length - m + i) 0)
      = l.drop (l.length - m) := by
  apply List.ext_getElem
  · simp only [List.length_map, List.length_range, List.length_drop]
    omega
  · intro i h1 h2
    simp only [List.getElem_map, List.getElem_range, List.getElem_drop]
    have hlt : l.length - m + i < l.length := by
      simp only [List.length_map, List.length_range] at h1
      omega
    rw [List.getD_eq_getElem l 0 hlt]

/-- C7 counterexample: after appending the single int16 sample 16384, a
tail read returns the raw value 16384 — not a float32 value in [−1, 1] —
and on an empty clamped range `get_tail` returns an empty array, not
`None`. -/
theorem c7_counterexample :
    ((AudioRingBuffer.init 4 1).append [16384]).map
        (fun r => r.get_tail 1) = some [16384] ∧
    ¬ ((16384 : ℤ) ≤ 1) ∧
    (AudioRingBuffer.init 4 1).get_tail 1 = [] := by
  refine ⟨?_, by decide, ?_⟩
  · have happ1 : (AudioRingBuffer.init 4 1).append [16384]
        = some { sample_rate := 4, max_samples := 4,
                 buffer := writeSlice (fun _ => (0 : ℤ)) 0 [16384],
                 write_pos := 1, total_samples_written := 1,
                 utterance_start_pos := 0 } := rfl
    rw [happ1]
    simp only [Option.map_some', Option.some.injEq]
    have hcast : ((4 : ℕ) : ℚ) * 1 = 4 := by norm_num
    have hreq : tailSampleRequest
        { sample_rate := 4, max_samples := 4,
          buffer := writeSlice (fun _ => (0 : ℤ)) 0 [16384],
          write_pos := 1, total_samples_written := 1,
          utterance_start_pos := 0 } 1 = 4 := by
      unfold tailSampleRequest
      rw [show (((4 : ℕ) : ℚ)) * 1 = 4 from by norm_num]
      decide
    rw [get_tail_eq _ 1 (by decide) (by decide)]
    rw [show tailSampleCount
        { sample_rate := 4, max_samples := 4,
          buffer := writeSlice (fun _ => (0 : ℤ)) 0 [16384],
          write_pos := 1, total_samples_written := 1,
          utterance_start_pos := 0 } 1 = 1 from by
      unfold tailSampleCount
      rw [hreq]
      decide]
    decide
  · unfold AudioRingBuffer.get_tail
    simp [AudioRingBuffer.init]

/-- C7 (amended): for every successfully built ring and every non-negative
requested duration, `get_tail` returns the last
`min(int(sample_rate × seconds), total_written, max_samples)` samples of the
pushed history — clamped to the available range and with the oldest samples
evicted — as raw int16 values (no float32 normalization; the int16→float32
conversion happens downstream in the decoder), and returns an empty array
(not `None`) when the clamped range is empty. -/
theorem c7_get_tail_amended (rate dur : ℕ) (hmax : 0 < rate * dur)
    (chunks : List (List ℤ)) (q : ℚ) (_hq : 0 ≤ q) :
    ((appendAll (AudioRingBuffer.init rate dur) chunks).map
        (fun r => r.get_tail q))
      = ((appendAll (AudioRingBuffer.init rate dur) chunks).map (fun _ =>
          (chunks.flatten).drop ((chunks.flatten).length
            - min (((rate : ℚ) * q).floor.toNat)
                (min (chunks.flatten).length (rate * dur))))) := by
  cases happ : appendAll (AudioRingBuffer.init rate dur) chunks with
  | none => rfl
  | some r =>
    have hinit : RingInv [] (AudioRingBuffer.init rate dur) :=
      ⟨rfl, by simp [AudioRingBuffer.init], fun a ha _ => by simp at ha⟩
    obtain ⟨hinv, hmaxeq, hsreq⟩ :=
      appendAll_inv chunks [] (AudioRingBuffer.init rate dur) r hmax hinit happ
    simp only [List.nil_append] at hinv
    obtain ⟨htot, hwp, hbuf⟩ := hinv
    have hmaxr : r.max_samples = rate * dur := hmaxeq
    have hsrr : r.sample_rate = rate := hsreq
    have hmr : tailSampleCount r q
        = min (((rate : ℚ) * q).floor.toNat)
            (min (chunks.flatten).length (rate * dur)) := by
      unfold tailSampleCount tailSampleRequest
      rw [htot, hmaxr, hsrr]
    have hm_le_len : tailSampleCount r q ≤ (chunks.flatten).length := by
      rw [← htot]
      exact le_trans (min_le_right _ _) (min_le_left _ _)
    have hm_le_max : tailSampleCount r q ≤ r.max_samples :=
      le_trans (min_le_right _ _) (min_le_right _ _)
    simp only [Option.map_some']
    congr 1
    rw [get_tail_eq r q (by rw [hmaxr]; exact hmax) (by rw [hwp, htot])]
    have hmap : (List.range (tailSampleCount r q)).map
        (fun i => r.buffer ((r.total_samples_written - tailSampleCount r q + i)
          % r.max_samples))
        = (List.range (tailSampleCount r q)).map
          (fun i => (chunks.flatten).getD
            ((chunks.flatten).length - tailSampleCount r q + i) 0) := by
      apply List.ext_getElem
      · simp
      · intro i h1 h2
        simp only [List.getElem_map, List.getElem_range]
        have hi : i < tailSampleCount r q := by
          simpa using h1
        rw [htot]
        exact hbuf ((chunks.flatten).length - tailSampleCount r q + i)
          (by omega) (by omega)
    rw [hmap, ← hmr]
    exact range_map_getD (chunks.flatten) (tailSampleCount r q) hm_le_len

/-- C7 witness: the amended tail law evaluated on a concrete ring of
capacity 4 after pushing 7 samples in two chunks. -/
theorem c7_get_tail_amended_witness :
    ((appendAll (AudioRingBuffer.init 4 1) [[1, 2, 3], [4, 5, 6, 7]]).map
        (fun r => r.get_tail 1))
      = ((appendAll (AudioRingBuffer.init 4 1) [[1, 2, 3], [4, 5, 6, 7]]).map
          (fun _ =>
            (([[1, 2, 3], [4, 5, 6, 7]] : List (List ℤ)).flatten).drop
              ((([[1, 2, 3], [4, 5, 6, 7]] : List (List ℤ)).flatten).length
                - min (((4 : ℚ) * 1).floor.toNat)
                    (min (([[1, 2, 3], [4, 5, 6, 7]] :
                        List (List ℤ)).flatten).length (4 * 1))))) :=
  c7_get_tail_amended 4 1 (by decide) [[1, 2, 3], [4, 5, 6, 7]] 1 (by decide)

/-- C10 witness: a concrete rejection — the scheduler already holds an
in-flight interim for connection c1, so a fresh interim for c1 is rejected
with no state change and no throttle update. -/
theorem c10_reject_side_effect_free_witness :
    ((c10s.enqueue_interim (sampleJob JobType.INTERIM "i1" "c1" 1)).1 = false) ∧
    ((c10s.enqueue_interim (sampleJob JobType.INTERIM "i1" "c1" 1)).2 = c10s ∧
      ∀ (throttle : ConnectionThrottle) (cooldown : ℕ) (now : ℚ),
        RuntimeState.enqueue_interim c10s throttle cooldown
          (sampleJob JobType.INTERIM "i1" "c1" 1) now
          = (false, c10s, throttle)) :=
  ⟨by decide,
    c10_reject_side_effect_free c10s (sampleJob JobType.INTERIM "i1" "c1" 1)
      (by decide)⟩

end TwoStt
